import Mathlib

/-
Verification development for the upload server in
scripts/claude-upload-server/server.py.

The server's upload path (UploadHandler.do_POST) sanitizes the client
filename with re.sub, splits it with os.path.splitext, inserts a
second-resolution timestamp, and writes the payload with
Path.write_bytes.  The listing path (UploadHandler.do_GET on /files)
sorts the storage directory by modification time, keeps regular files,
and formats sizes and timestamps.  Everything below is a shallow
embedding of that code: strings are Lean Strings, byte payloads are
lists of naturals, the filesystem is an association list, and the
fallible mkdir / write steps are made explicit outcome parameters so
that the except-branch of do_POST can be stated.
-/

namespace UploadServer

/-- Python regex word character for a str pattern (the w class used in
the source's character class): a Unicode alphanumeric character or the
underscore.  The model covers the Basic Latin and Latin-1 blocks, which
include every character exercised by the claims (code points at or
above 0x100 are modelled as non-word characters). -/
def pyWordChar (c : Char) : Bool :=
  decide (0x30 ≤ c.toNat ∧ c.toNat ≤ 0x39) || decide (0x41 ≤ c.toNat ∧ c.toNat ≤ 0x5A) ||
  decide (0x61 ≤ c.toNat ∧ c.toNat ≤ 0x7A) || decide (c.toNat = 0x5F) ||
  decide (c.toNat = 0xAA) || decide (c.toNat = 0xB2) || decide (c.toNat = 0xB3) ||
  decide (c.toNat = 0xB5) || decide (c.toNat = 0xB9) || decide (c.toNat = 0xBA) ||
  decide (0xBC ≤ c.toNat ∧ c.toNat ≤ 0xBE) || decide (0xC0 ≤ c.toNat ∧ c.toNat ≤ 0xD6) ||
  decide (0xD8 ≤ c.toNat ∧ c.toNat ≤ 0xF6) || decide (0xF8 ≤ c.toNat ∧ c.toNat ≤ 0xFF)

/-- A character is kept by the source's substitution exactly when it is
inside the character class of the pattern used at server.py line 290:
a word character, a hyphen, an underscore, or a literal dot. -/
def keepChar (c : Char) : Bool :=
  pyWordChar c || decide (c.toNat = 0x2D) || decide (c.toNat = 0x5F) || decide (c.toNat = 0x2E)

/-- The per-character action of the substitution at server.py line 290:
every character outside the class is replaced by an underscore. -/
def sanitizeList : List Char → List Char
  | [] => []
  | c :: cs => (if keepChar c then c else '_') :: sanitizeList cs

/-- Filename sanitization, server.py line 290. -/
def sanitize (s : String) : String := ⟨sanitizeList s.data⟩

/-- Index of the last occurrence of a character, -1 when absent:
Python's str.rfind, as used by os.path.splitext. -/
def rfind (c : Char) : List Char → Int
  | [] => -1
  | a :: as => if 0 ≤ rfind c as then rfind c as + 1 else if a = c then 0 else -1

/-- os.path.splitext for POSIX paths, as called at server.py line 293:
split at the last dot provided it lies after the last slash and the
characters between the last slash and that dot are not all dots
(leading dots of the basename never start an extension). -/
def splitext (s : String) : String × String :=
  if rfind '/' s.data < rfind '.' s.data ∧
      ((s.data.drop (rfind '/' s.data + 1).toNat).take
          (rfind '.' s.data - rfind '/' s.data - 1).toNat).any (fun c => decide (c ≠ '.')) then
    (⟨s.data.take (rfind '.' s.data).toNat⟩, ⟨s.data.drop (rfind '.' s.data).toNat⟩)
  else (s, "")

/-- The filename actually stored, server.py lines 293-295:
sanitized base, underscore, timestamp, extension of the sanitized name. -/
def storedName (filename ts : String) : String :=
  (splitext (sanitize filename)).1 ++ "_" ++ ts ++ (splitext (sanitize filename)).2

/-- A wall-clock instant as datetime.now() exposes it to strftime.
datetime guarantees year below 10000, month 1-12, day 1-31, hour 0-23,
minute and second 0-59. -/
structure DateTime where
  year : Nat
  month : Nat
  day : Nat
  hour : Nat
  minute : Nat
  second : Nat
deriving DecidableEq

/-- strftime zero-padded two-digit field (faithful on the 0-99 range
that datetime guarantees for month, day, hour, minute, second). -/
def pad2 (n : Nat) : List Char := [Nat.digitChar (n / 10 % 10), Nat.digitChar (n % 10)]

/-- strftime zero-padded four-digit year field (faithful on 0-9999). -/
def pad4 (n : Nat) : List Char :=
  [Nat.digitChar (n / 1000 % 10), Nat.digitChar (n / 100 % 10),
   Nat.digitChar (n / 10 % 10), Nat.digitChar (n % 10)]

/-- datetime.now().strftime of the format at server.py line 294:
YYYYMMDD underscore HHMMSS. -/
def fmtTimestamp (t : DateTime) : String :=
  ⟨pad4 t.year ++ pad2 t.month ++ pad2 t.day ++
    '_' :: (pad2 t.hour ++ pad2 t.minute ++ pad2 t.second)⟩

/-- The storage directory contents as the upload path sees them:
stored name paired with the byte content written there. -/
abbrev FS := List (String × List Nat)

/-- Path.write_bytes semantics on the directory map: create the entry,
or overwrite the content if the name already exists. -/
def fsInsert : FS → String → List Nat → FS
  | [], name, content => [(name, content)]
  | (n, c) :: rest, name, content =>
    if n = name then (name, content) :: rest else (n, c) :: fsInsert rest name content

/-- Content stored under a name, if any. -/
def fsLookup : FS → String → Option (List Nat)
  | [], _ => none
  | (n, c) :: rest, name => if n = name then some c else fsLookup rest name

/-- Python's substring containment test, as used for the content type
check at server.py line 274. -/
def strContains (hay pat : String) : Bool := decide (pat.data <:+: hay.data)

/-- The file part of the multipart form: cgi gives the part's filename
attribute (absent for a plain field) and the bytes read from it. -/
structure FormPart where
  filename : Option String
  content : List Nat
deriving DecidableEq

/-- A POST request as do_POST consumes it: the Content-Type header and
the form's file field, when present. -/
structure PostRequest where
  contentType : String
  filePart : Option FormPart
deriving DecidableEq

/-- Outcome of UPLOAD_DIR.mkdir at server.py line 298. -/
inductive MkdirOutcome where
  | ok : MkdirOutcome
  | fail (msg : String) : MkdirOutcome
deriving DecidableEq

/-- Outcome of Path.write_bytes at server.py line 302.  write_bytes
opens the final path directly and writes the buffer, so a failure can
happen before the file exists (failOpen) or after a prefix of the data
reached the file (failAfter). -/
inductive WriteOutcome where
  | ok : WriteOutcome
  | failOpen (msg : String) : WriteOutcome
  | failAfter (written : Nat) (msg : String) : WriteOutcome
deriving DecidableEq

/-- Ambient state of one do_POST call: the storage directory path, the
formatted current time, and the outcomes the filesystem will produce. -/
structure Env where
  uploadDir : String
  ts : String
  mkdirOutcome : MkdirOutcome
  writeOutcome : WriteOutcome
deriving DecidableEq

/-- A formatted listing entry, server.py lines 258-263. -/
structure FileInfo where
  name : String
  path : String
  size : String
  time : String
deriving DecidableEq

/-- The JSON (or HTML) responses the handler sends. -/
inductive Response where
  | ok (path : String) (size : Nat) : Response
  | err (status : Nat) (message : String) : Response
  | files (entries : List FileInfo) : Response
  | html : Response
  | notFound : Response
deriving DecidableEq

/-- UploadHandler.do_POST, server.py lines 269-314, with the try/except
flattened: the TypeError that re.sub raises on a None filename and the
OSErrors of mkdir and write_bytes all land in the except branch, which
answers 500 with the exception text. -/
def do_POST (env : Env) (path : String) (req : PostRequest) (fs : FS) : Response × FS :=
  if path = "/upload" then
    if strContains req.contentType "multipart/form-data" then
      match req.filePart with
      | none => (.err 400 "No file provided", fs)
      | some part =>
        match part.filename with
        | none => (.err 500 "expected string or bytes-like object", fs)
        | some rawName =>
          match env.mkdirOutcome with
          | .fail msg => (.err 500 msg, fs)
          | .ok =>
            match env.writeOutcome with
            | .ok =>
              (.ok (env.uploadDir ++ "/" ++ storedName rawName env.ts) part.content.length,
               fsInsert fs (storedName rawName env.ts) part.content)
            | .failOpen msg => (.err 500 msg, fs)
            | .failAfter k msg =>
              (.err 500 msg, fsInsert fs (storedName rawName env.ts) (part.content.take k))
    else (.err 400 "Invalid content type", fs)
  else (.notFound, fs)

/-- One entry of UPLOAD_DIR.iterdir(): name, whether it is a regular
file, byte size, and modification time in whole seconds. -/
structure DirEntry where
  name : String
  isFile : Bool
  size : Nat
  mtime : Nat
deriving DecidableEq

/-- Round num/den to the nearest integer, ties to even: the rounding
float formatting applies.  The sizes divided by 1024 (or 1024 squared)
are exact binary floats, so the formatted digit is this rounding of the
exact rational. -/
def roundHalfEven (num den : Nat) : Nat :=
  if 2 * (num % den) < den then num / den
  else if den < 2 * (num % den) then num / den + 1
  else if num / den % 2 = 0 then num / den else num / den + 1

/-- Render a number of tenths as a one-decimal string. -/
def oneDecimal (n : Nat) : String := toString (n / 10) ++ "." ++ toString (n % 10)

/-- The size string of server.py line 257: bytes below 1024, kibibytes
to one decimal below 1024 squared, mebibytes to one decimal otherwise.
10 times size/1024 is 5*size/512, and 10 times size/1024/1024 is
5*size/524288. -/
def sizeStr (size : Nat) : String :=
  if size < 1024 then toString size ++ " B"
  else if size < 1024 * 1024 then oneDecimal (roundHalfEven (5 * size) 512) ++ " KB"
  else oneDecimal (roundHalfEven (5 * size) 524288) ++ " MB"

/-- Civil date from days since the Unix epoch (proleptic Gregorian),
the standard era-based conversion datetime performs. -/
def civilFromDays (z : Nat) : Nat × Nat × Nat :=
  let z' := z + 719468
  let era := z' / 146097
  let doe := z' % 146097
  let yoe := (doe - doe / 1460 + doe / 36524 - doe / 146096) / 365
  let doy := doe - (365 * yoe + yoe / 4 - yoe / 100)
  let mp := (5 * doy + 2) / 153
  let d := doy - (153 * mp + 2) / 5 + 1
  let m := if mp < 10 then mp + 3 else mp - 9
  (yoe + era * 400 + (if m ≤ 2 then 1 else 0), m, d)

/-- datetime.fromtimestamp(mtime).strftime of the listing time format
at server.py line 262, with the timestamp in whole seconds and the
local timezone modelled as UTC. -/
def fmtTime (t : Nat) : String :=
  let ymd := civilFromDays (t / 86400)
  let secs := t % 86400
  ⟨pad4 ymd.1 ++ '-' :: pad2 ymd.2.1 ++ '-' :: pad2 ymd.2.2 ++
    ' ' :: pad2 (secs / 3600) ++ ':' :: pad2 (secs % 3600 / 60) ++ ':' :: pad2 (secs % 60)⟩

/-- The listing entry built for one directory entry, server.py 258-263.
str(f) joins the directory path and the name with a slash. -/
def mkFileInfo (dirPath : String) (e : DirEntry) : FileInfo :=
  { name := e.name, path := dirPath ++ "/" ++ e.name,
    size := sizeStr e.size, time := fmtTime e.mtime }

/-- sorted(UPLOAD_DIR.iterdir(), key=mtime, reverse=True) at line 253:
a stable sort placing larger modification times first. -/
def sortedEntries (entries : List DirEntry) : List DirEntry :=
  entries.mergeSort fun a b => decide (b.mtime ≤ a.mtime)

/-- The /files response body, server.py lines 250-264: none models a
missing storage directory (UPLOAD_DIR.exists() false), in which case
the list stays empty. -/
def listFiles : Option (List DirEntry) → String → List FileInfo
  | none, _ => []
  | some entries, dirPath =>
    ((sortedEntries entries).filter (·.isFile)).map (mkFileInfo dirPath)

/-- UploadHandler.do_GET, server.py lines 244-267. -/
def do_GET (dirPath : String) (dir : Option (List DirEntry)) (path : String) : Response :=
  if path = "/" then .html
  else if path = "/files" then .files (listFiles dir dirPath)
  else .notFound

/-- Splitting a name into slash-separated path segments (accumulator
carries the current segment reversed). -/
def segmentsAux (cur : List Char) : List Char → List (List Char)
  | [] => [cur.reverse]
  | c :: cs => if c = '/' then cur.reverse :: segmentsAux [] cs else segmentsAux (c :: cur) cs

/-- The path segments of a filename string. -/
def segments (s : String) : List String := (segmentsAux [] s.data).map fun l => ⟨l⟩

/-- POSIX resolution of a name joined to an already-resolved directory:
empty and dot segments vanish, a dot-dot segment pops one directory,
anything else descends. -/
def resolvePath (base : List String) (name : String) : List String :=
  (segments name).foldl
    (fun acc seg =>
      if seg = "" then acc
      else if seg = "." then acc
      else if seg = ".." then acc.dropLast
      else acc ++ [seg]) base

/-- The character class exactly as the specification words it: an ASCII
letter, an ASCII digit, underscore, hyphen, or literal dot.  Kept for
comparison against the source's class. -/
def sanitizeSpecKeep (c : Char) : Bool :=
  decide (0x41 ≤ c.toNat ∧ c.toNat ≤ 0x5A) || decide (0x61 ≤ c.toNat ∧ c.toNat ≤ 0x7A) ||
  decide (0x30 ≤ c.toNat ∧ c.toNat ≤ 0x39) || decide (c.toNat = 0x5F) ||
  decide (c.toNat = 0x2D) || decide (c.toNat = 0x2E)

/-- The sanitizer as the specification describes it, for comparison. -/
def sanitizeSpec (s : String) : String :=
  ⟨s.data.map fun c => if sanitizeSpecKeep c then c else '_'⟩

/-- The empty string literal carries the empty character list. -/
theorem data_empty : ("" : String).data = [] := rfl

/-- The underscore literal carries the singleton character list. -/
theorem data_underscore : ("_" : String).data = ['_'] := rfl

/-- The substitution is the characterwise map over the class test. -/
theorem sanitizeList_eq_map (l : List Char) :
    sanitizeList l = l.map fun c => if keepChar c then c else '_' := by
  induction l with
  | nil => rfl
  | cons c cs ih => simp [sanitizeList, ih]

/-- Every character of a sanitized name is either inside the kept class
or the replacement underscore. -/
theorem mem_sanitize_data {s : String} {c : Char} (h : c ∈ (sanitize s).data) :
    keepChar c = true ∨ c = '_' := by
  have hmap : (sanitize s).data = s.data.map fun c => if keepChar c then c else '_' := by
    simpa [sanitize] using sanitizeList_eq_map s.data
  rw [hmap] at h
  rcases List.mem_map.1 h with ⟨a, _, rfl⟩
  by_cases hk : keepChar a
  · simp [hk]
  · simp [hk]

/-- A kept character is never a slash. -/
theorem keepChar_ne_slash {c : Char} (h : keepChar c = true) : c ≠ '/' := by
  rintro rfl
  revert h
  decide

/-- A kept character is never a backslash. -/
theorem keepChar_ne_backslash {c : Char} (h : keepChar c = true) : c ≠ '\\' := by
  rintro rfl
  revert h
  decide

/-- rfind is never below -1. -/
theorem neg_one_le_rfind (c : Char) (l : List Char) : -1 ≤ rfind c l := by
  induction l with
  | nil => simp [rfind]
  | cons a as ih =>
    simp only [rfind]
    split
    · omega
    · split <;> omega

/-- A nonnegative rfind result indexes an occurrence of the sought
character. -/
theorem rfind_get {c : Char} : ∀ {l : List Char}, 0 ≤ rfind c l →
    l[(rfind c l).toNat]? = some c
  | [], h => by simp [rfind] at h
  | a :: as, h => by
    by_cases h0 : 0 ≤ rfind c as
    · have ih := rfind_get (l := as) h0
      simp only [rfind, if_pos h0]
      have ht : ((rfind c as + 1).toNat) = (rfind c as).toNat + 1 := by omega
      rw [ht]
      simpa using ih
    · by_cases hac : a = c
      · simp [rfind, if_neg h0, hac]
      · exfalso
        simp only [rfind, if_neg h0, if_neg hac] at h
        omega

/-- No occurrence of the sought character lies strictly after the
rfind position: rfind is the last occurrence. -/
theorem rfind_last {c : Char} : ∀ {l : List Char} {j : Nat},
    rfind c l < (j : Int) → l[j]? ≠ some c
  | [], j, _ => by simp
  | a :: as, 0, h => by
    intro hcon
    simp only [List.getElem?_cons_zero, Option.some.injEq] at hcon
    subst hcon
    simp only [rfind] at h
    split at h
    · omega
    · simp at h
  | a :: as, j + 1, h => by
    have hlt : rfind c as < (j : Int) := by
      simp only [rfind] at h
      split at h
      · omega
      · split at h <;> omega
    simpa using rfind_last hlt

/-- splitext splits the name: base and extension recombine to it. -/
theorem splitext_recomb (s : String) :
    (splitext s).1.data ++ (splitext s).2.data = s.data := by
  unfold splitext
  split
  · simp [List.take_append_drop]
  · simp [data_empty]

/-- The extension splitext returns is empty or starts with a dot. -/
theorem splitext_ext_cases (s : String) :
    (splitext s).2 = "" ∨ ∃ l, (splitext s).2.data = '.' :: l := by
  unfold splitext
  split
  · right
    rename_i hcond
    obtain ⟨hlt, _⟩ := hcond
    have h1 : -1 ≤ rfind '/' s.data := neg_one_le_rfind _ _
    have hge : 0 ≤ rfind '.' s.data := by omega
    have hget := rfind_get (l := s.data) hge
    rcases List.getElem?_eq_some.1 hget with ⟨hlen, hval⟩
    refine ⟨s.data.drop ((rfind '.' s.data).toNat + 1), ?_⟩
    show s.data.drop (rfind '.' s.data).toNat = _
    rw [List.drop_eq_getElem_cons hlen, hval]
  · left
    rfl

/-- After its leading dot, the extension contains no further dot: the
split happens at the last dot of the name. -/
theorem splitext_ext_tail_no_dot (s : String) (j : Nat) (hj : 1 ≤ j) :
    ((splitext s).2.data)[j]? ≠ some '.' := by
  unfold splitext
  split
  · rename_i hcond
    obtain ⟨hlt, _⟩ := hcond
    have h1 : -1 ≤ rfind '/' s.data := neg_one_le_rfind '/' s.data
    show (s.data.drop (rfind '.' s.data).toNat)[j]? ≠ some '.'
    rw [List.getElem?_drop]
    exact rfind_last (by omega)
  · show (("" : String).data)[j]? ≠ some '.'
    rw [data_empty]
    simp

/-- The base splitext returns is made of characters of the name. -/
theorem splitext_base_subset (s : String) : (splitext s).1.data ⊆ s.data := by
  unfold splitext
  split
  · exact List.take_subset _ _
  · exact fun _ h => h

/-- The extension splitext returns is made of characters of the name. -/
theorem splitext_ext_subset (s : String) : (splitext s).2.data ⊆ s.data := by
  unfold splitext
  split
  · exact List.drop_subset _ _
  · intro x hx
    rw [data_empty] at hx
    cases hx

/-- digitChar sends the ten digit values to digit characters. -/
theorem digitChar_isDigit {k : Nat} (h : k < 10) : (Nat.digitChar k).isDigit = true := by
  interval_cases k <;> decide

/-- Both characters of a two-digit field are digits. -/
theorem mem_pad2 {n : Nat} {c : Char} (h : c ∈ pad2 n) : c.isDigit = true := by
  simp only [pad2, List.mem_cons, List.not_mem_nil, or_false] at h
  rcases h with rfl | rfl
  · exact digitChar_isDigit (Nat.mod_lt _ (by norm_num))
  · exact digitChar_isDigit (Nat.mod_lt _ (by norm_num))

/-- All four characters of the year field are digits. -/
theorem mem_pad4 {n : Nat} {c : Char} (h : c ∈ pad4 n) : c.isDigit = true := by
  simp only [pad4, List.mem_cons, List.not_mem_nil, or_false] at h
  rcases h with rfl | rfl | rfl | rfl <;>
    exact digitChar_isDigit (Nat.mod_lt _ (by norm_num))

/-- Every character of the formatted timestamp is a digit or the
separating underscore. -/
theorem mem_fmtTimestamp {t : DateTime} {c : Char} (h : c ∈ (fmtTimestamp t).data) :
    c.isDigit = true ∨ c = '_' := by
  have h' : c ∈ pad4 t.year ++ pad2 t.month ++ pad2 t.day ++
      '_' :: (pad2 t.hour ++ pad2 t.minute ++ pad2 t.second) := h
  simp only [List.mem_append, List.mem_cons] at h'
  rcases h' with ((h' | h') | h') | (h' | ((h' | h') | h'))
  · exact .inl (mem_pad4 h')
  · exact .inl (mem_pad2 h')
  · exact .inl (mem_pad2 h')
  · exact .inr h'
  · exact .inl (mem_pad2 h')
  · exact .inl (mem_pad2 h')
  · exact .inl (mem_pad2 h')

/-- The formatted timestamp is fifteen characters long. -/
theorem fmtTimestamp_data_length (t : DateTime) : (fmtTimestamp t).data.length = 15 := by
  show (pad4 t.year ++ pad2 t.month ++ pad2 t.day ++
      '_' :: (pad2 t.hour ++ pad2 t.minute ++ pad2 t.second)).length = 15
  simp [pad2, pad4]

/-- A digit character is not a slash. -/
theorem isDigit_ne_slash {c : Char} (h : c.isDigit = true) : c ≠ '/' := by
  rintro rfl
  revert h
  decide

/-- Every character of a stored name comes from the sanitized name,
from the timestamp, or is the inserted underscore. -/
theorem mem_storedName {fn ts : String} {c : Char} (h : c ∈ (storedName fn ts).data) :
    c ∈ (sanitize fn).data ∨ c ∈ ts.data ∨ c = '_' := by
  simp only [storedName, String.data_append, List.mem_append, data_underscore,
    List.mem_singleton] at h
  rcases h with ((h | h) | h) | h
  · exact .inl (splitext_base_subset _ h)
  · exact .inr (.inr h)
  · exact .inr (.inl h)
  · exact .inl (splitext_ext_subset _ h)

/-- The stored name length is base plus underscore plus timestamp plus
extension. -/
theorem storedName_data_length (fn ts : String) :
    (storedName fn ts).data.length =
      (splitext (sanitize fn)).1.data.length + 1 + ts.data.length +
        (splitext (sanitize fn)).2.data.length := by
  simp only [storedName, String.data_append, List.length_append, data_underscore,
    List.length_cons, List.length_nil]

/-- Splitting a slash-free character list yields the single segment it
already is. -/
theorem segmentsAux_of_no_slash (cur : List Char) (l : List Char) (h : ∀ c ∈ l, c ≠ '/') :
    segmentsAux cur l = [cur.reverse ++ l] := by
  induction l generalizing cur with
  | nil => simp [segmentsAux]
  | cons c cs ih =>
    have hc : c ≠ '/' := h c (by simp)
    simp only [segmentsAux, if_neg hc]
    rw [ih (c :: cur) (fun x hx => h x (by simp [hx]))]
    simp

/-- A slash-free name is its own single path segment. -/
theorem segments_of_no_slash (s : String) (h : ∀ c ∈ s.data, c ≠ '/') : segments s = [s] := by
  unfold segments
  rw [segmentsAux_of_no_slash [] s.data h]
  simp only [List.reverse_nil, List.nil_append, List.map_cons, List.map_nil]

/-- Joining a plain single-segment name to a directory descends into
exactly that child. -/
theorem resolvePath_of_plain (base : List String) (s : String)
    (hseg : segments s = [s]) (h0 : s ≠ "") (h1 : s ≠ ".") (h2 : s ≠ "..") :
    resolvePath base s = base ++ [s] := by
  unfold resolvePath
  rw [hseg]
  simp [h0, h1, h2]

/-- Looking up the key just written finds the written content. -/
theorem fsLookup_fsInsert_self (fs : FS) (n : String) (v : List Nat) :
    fsLookup (fsInsert fs n v) n = some v := by
  induction fs with
  | nil => simp [fsInsert, fsLookup]
  | cons p rest ih =>
    obtain ⟨pn, pc⟩ := p
    by_cases h : pn = n
    · simp [fsInsert, fsLookup, h]
    · simp [fsInsert, fsLookup, h, ih]

/-- Writing one key leaves every other key unchanged. -/
theorem fsLookup_fsInsert_ne (fs : FS) (n m : String) (v : List Nat) (h : m ≠ n) :
    fsLookup (fsInsert fs n v) m = fsLookup fs m := by
  have h' : n ≠ m := Ne.symm h
  induction fs with
  | nil => simp [fsInsert, fsLookup, h']
  | cons p rest ih =>
    obtain ⟨pn, pc⟩ := p
    by_cases hpn : pn = n
    · subst hpn
      simp [fsInsert, fsLookup, h']
    · simp [fsInsert, fsLookup, hpn, ih]

/-- C1 counterexample: the claim promises that for every filename with
path separators or dot-dot segments the sanitized result has no dot-dot
segment and joins inside the storage directory.  The filename consisting
of exactly two dots refutes it: both dots are inside the kept class, the
sanitized result is again the dot-dot segment, and joining it to the
storage directory resolves to the parent directory, with no rejection
anywhere in the code. -/
theorem sanitize_dotdot_cex :
    (".." ∈ segments "..") ∧ sanitize ".." = ".." ∧ (".." ∈ segments (sanitize "..")) ∧
    resolvePath ["home", "claude", "share"] (sanitize "..") = ["home", "claude"] := by
  decide

/-- C1 (amended): for every client filename the sanitized result
contains no slash and no backslash; the stored filename (sanitized base,
underscore, fifteen-character timestamp, extension) contains no slash,
is a single path segment distinct from empty, dot, and dot-dot, and so
joining it to any storage directory resolves to a direct child of that
directory.  The name consisting of dots alone does survive sanitization,
and the code has no canonicalize-and-reject step, but the timestamped
stored name can never escape. -/
theorem upload_path_inside (fn : String) (t : DateTime) (base : List String) :
    (∀ c ∈ (sanitize fn).data, c ≠ '/' ∧ c ≠ '\\') ∧
    (∀ c ∈ (storedName fn (fmtTimestamp t)).data, c ≠ '/') ∧
    storedName fn (fmtTimestamp t) ≠ "" ∧
    storedName fn (fmtTimestamp t) ≠ "." ∧
    storedName fn (fmtTimestamp t) ≠ ".." ∧
    segments (storedName fn (fmtTimestamp t)) = [storedName fn (fmtTimestamp t)] ∧
    resolvePath base (storedName fn (fmtTimestamp t)) =
      base ++ [storedName fn (fmtTimestamp t)] := by
  have hsan : ∀ c ∈ (sanitize fn).data, c ≠ '/' ∧ c ≠ '\\' := by
    intro c hc
    rcases mem_sanitize_data hc with hk | rfl
    · exact ⟨keepChar_ne_slash hk, keepChar_ne_backslash hk⟩
    · exact ⟨by decide, by decide⟩
  have hsn : ∀ c ∈ (storedName fn (fmtTimestamp t)).data, c ≠ '/' := by
    intro c hc
    rcases mem_storedName hc with h | h | rfl
    · exact (hsan c h).1
    · rcases mem_fmtTimestamp h with hd | rfl
      · exact isDigit_ne_slash hd
      · decide
    · decide
  have hlen : 16 ≤ (storedName fn (fmtTimestamp t)).data.length := by
    have h1 := storedName_data_length fn (fmtTimestamp t)
    have h2 := fmtTimestamp_data_length t
    omega
  have hne : ∀ u : String, u.data.length ≤ 2 → storedName fn (fmtTimestamp t) ≠ u := by
    intro u hu he
    rw [he] at hlen
    omega
  have hne0 := hne "" (by decide)
  have hne1 := hne "." (by decide)
  have hne2 := hne ".." (by decide)
  have hseg := segments_of_no_slash _ hsn
  exact ⟨hsan, hsn, hne0, hne1, hne2, hseg,
    resolvePath_of_plain base _ hseg hne0 hne1 hne2⟩

/-- C1 witness: the classic traversal filename lands strictly inside
the storage directory; its concrete stored name is also computed. -/
theorem upload_path_inside_witness :
    resolvePath ["home", "claude", "share"]
        (storedName "../../etc/passwd" (fmtTimestamp ⟨2024, 1, 15, 10, 30, 0⟩)) =
      ["home", "claude", "share",
        storedName "../../etc/passwd" (fmtTimestamp ⟨2024, 1, 15, 10, 30, 0⟩)] ∧
    storedName "../../etc/passwd" (fmtTimestamp ⟨2024, 1, 15, 10, 30, 0⟩) =
      ".._._20240115_103000._etc_passwd" :=
  ⟨(upload_path_inside "../../etc/passwd" ⟨2024, 1, 15, 10, 30, 0⟩
      ["home", "claude", "share"]).2.2.2.2.2.2, by decide⟩

/-- C2 counterexample: the claim says every character outside the ASCII
letter, digit, underscore, hyphen, dot class is replaced, but the
source's word class is Unicode-aware: the Latin-1 letter at code point
0xE9 is kept by the code while the spec's reading would replace it. -/
theorem sanitize_unicode_cex :
    sanitize "é" = "é" ∧ sanitizeSpec "é" = "_" ∧ sanitize "é" ≠ sanitizeSpec "é" := by
  decide

/-- C2 (amended): the sanitizer is the characterwise map keeping
exactly the source class (Unicode word character, hyphen, underscore,
dot) and replacing everything else with an underscore; on the ASCII
range this class coincides exactly with the specification's class, so
the claim is correct for ASCII input and fails only on non-ASCII word
characters, which the code also keeps. -/
theorem sanitize_char_class (s : String) :
    (sanitize s).data = (s.data.map fun c => if keepChar c then c else '_') ∧
    (∀ c : Char, c.toNat < 128 → keepChar c = sanitizeSpecKeep c) ∧
    (∀ c ∈ (sanitize s).data, keepChar c = true ∨ c = '_') := by
  refine ⟨sanitizeList_eq_map s.data, ?_, fun c hc => mem_sanitize_data hc⟩
  intro c h
  have hiff : (keepChar c = true) ↔ (sanitizeSpecKeep c = true) := by
    simp only [keepChar, pyWordChar, sanitizeSpecKeep, Bool.or_eq_true, decide_eq_true_eq]
    omega
  cases hk : keepChar c <;> cases hs : sanitizeSpecKeep c <;> simp_all

/-- C2 witness: class agreement evaluated on a concrete ASCII character
and the map characterization on a concrete filename. -/
theorem sanitize_char_class_witness :
    keepChar 'a' = sanitizeSpecKeep 'a' ∧ (sanitize "a b.png").data = "a_b.png".data := by
  refine ⟨(sanitize_char_class "a b.png").2.1 'a' (by decide), ?_⟩
  rw [(sanitize_char_class "a b.png").1]
  decide

/-- C3: a valid multipart upload with a named file part, with directory
creation and the write succeeding, answers success carrying the final
absolute path (directory slash stored name) and a size equal to the
payload length; the stored content is exactly the payload, so the
reported size equals the number of bytes written.  The payload may be
empty. -/
theorem upload_success_size_path (env : Env) (req : PostRequest) (fs : FS)
    (part : FormPart) (rawName : String)
    (hct : strContains req.contentType "multipart/form-data" = true)
    (hpart : req.filePart = some part) (hname : part.filename = some rawName)
    (hmk : env.mkdirOutcome = MkdirOutcome.ok) (hw : env.writeOutcome = WriteOutcome.ok) :
    do_POST env "/upload" req fs =
      (Response.ok (env.uploadDir ++ "/" ++ storedName rawName env.ts) part.content.length,
        fsInsert fs (storedName rawName env.ts) part.content) ∧
    fsLookup (do_POST env "/upload" req fs).2 (storedName rawName env.ts) =
      some part.content ∧
    (∀ written, fsLookup (do_POST env "/upload" req fs).2 (storedName rawName env.ts) =
      some written → written.length = part.content.length) := by
  have hmain : do_POST env "/upload" req fs =
      (Response.ok (env.uploadDir ++ "/" ++ storedName rawName env.ts) part.content.length,
        fsInsert fs (storedName rawName env.ts) part.content) := by
    simp [do_POST, hct, hpart, hname, hmk, hw]
  refine ⟨hmain, ?_, ?_⟩
  · rw [hmain]
    exact fsLookup_fsInsert_self _ _ _
  · intro written hwr
    rw [hmain] at hwr
    rw [fsLookup_fsInsert_self] at hwr
    cases hwr
    rfl

/-- C3 witness: a zero-byte upload succeeds, reports size zero and the
final path, and stores a zero-length file. -/
theorem upload_zero_byte_witness :
    do_POST ⟨"/home/claude/share", "20240115_103000", .ok, .ok⟩ "/upload"
        ⟨"multipart/form-data; boundary=x", some ⟨some "empty.txt", []⟩⟩ [] =
      (Response.ok "/home/claude/share/empty_20240115_103000.txt" 0,
        [("empty_20240115_103000.txt", [])]) := by
  have h := (upload_success_size_path ⟨"/home/claude/share", "20240115_103000", .ok, .ok⟩
      ⟨"multipart/form-data; boundary=x", some ⟨some "empty.txt", []⟩⟩ []
      ⟨some "empty.txt", []⟩ "empty.txt" (by decide) rfl rfl rfl rfl).1
  rw [h]
  decide

/-- C4: the stored filename is the sanitized name's base, an
underscore, the fifteen-character YYYYMMDD underscore HHMMSS timestamp
(all digits around one underscore), then the sanitized name's
extension; base and extension recombine to the sanitized name, the
extension is empty or starts at the last dot (a dot followed by no
further dot), and with no extension nothing follows the timestamp. -/
theorem stored_name_structure (fn : String) (t : DateTime) :
    storedName fn (fmtTimestamp t) =
      (splitext (sanitize fn)).1 ++ "_" ++ fmtTimestamp t ++ (splitext (sanitize fn)).2 ∧
    (splitext (sanitize fn)).1.data ++ (splitext (sanitize fn)).2.data = (sanitize fn).data ∧
    ((splitext (sanitize fn)).2 = "" ∨ ∃ l, (splitext (sanitize fn)).2.data = '.' :: l) ∧
    (∀ j, 1 ≤ j → ((splitext (sanitize fn)).2.data)[j]? ≠ some '.') ∧
    ((splitext (sanitize fn)).2 = "" →
      storedName fn (fmtTimestamp t) = (splitext (sanitize fn)).1 ++ "_" ++ fmtTimestamp t) ∧
    (fmtTimestamp t).data.length = 15 ∧
    (∀ c ∈ (fmtTimestamp t).data, c.isDigit = true ∨ c = '_') ∧
    (fmtTimestamp t).data =
      pad4 t.year ++ pad2 t.month ++ pad2 t.day ++
        '_' :: (pad2 t.hour ++ pad2 t.minute ++ pad2 t.second) := by
  refine ⟨rfl, splitext_recomb _, splitext_ext_cases _,
    fun j hj => splitext_ext_tail_no_dot _ j hj, ?_,
    fmtTimestamp_data_length t, fun c hc => mem_fmtTimestamp hc, rfl⟩
  intro he
  unfold storedName
  rw [he, String.append_empty]

/-- C4 witness: structure facts evaluated on a concrete upload. -/
theorem stored_name_witness :
    (((splitext (sanitize "report.pdf")).2.data)[1]? ≠ some '.') ∧
    storedName "report.pdf" (fmtTimestamp ⟨2024, 1, 15, 10, 30, 0⟩) =
      "report_20240115_103000.pdf" := by
  refine ⟨(stored_name_structure "report.pdf" ⟨2024, 1, 15, 10, 30, 0⟩).2.2.2.1 1 (by decide),
    ?_⟩
  rw [(stored_name_structure "report.pdf" ⟨2024, 1, 15, 10, 30, 0⟩).1]
  decide

/-- C5: a POST to the upload route whose content type does not declare
multipart form data answers 400 with the invalid-content-type failure
body, and a multipart POST without the file field answers 400 with
exactly the no-file-provided failure body; the directory is untouched
in both cases. -/
theorem invalid_request_400 (env : Env) (req : PostRequest) (fs : FS) :
    (strContains req.contentType "multipart/form-data" = false →
      do_POST env "/upload" req fs = (Response.err 400 "Invalid content type", fs)) ∧
    (strContains req.contentType "multipart/form-data" = true → req.filePart = none →
      do_POST env "/upload" req fs = (Response.err 400 "No file provided", fs)) := by
  constructor
  · intro h
    simp [do_POST, h]
  · intro h hn
    simp [do_POST, h, hn]

/-- C5 witness: both failure branches evaluated on concrete requests. -/
theorem invalid_request_witness :
    do_POST ⟨"/home/claude/share", "20240115_103000", .ok, .ok⟩ "/upload"
        ⟨"application/json", some ⟨some "a.txt", [1]⟩⟩ [] =
      (Response.err 400 "Invalid content type", []) ∧
    do_POST ⟨"/home/claude/share", "20240115_103000", .ok, .ok⟩ "/upload"
        ⟨"multipart/form-data; boundary=x", none⟩ [] =
      (Response.err 400 "No file provided", []) :=
  ⟨(invalid_request_400 ⟨"/home/claude/share", "20240115_103000", .ok, .ok⟩
      ⟨"application/json", some ⟨some "a.txt", [1]⟩⟩ []).1 (by decide),
    (invalid_request_400 ⟨"/home/claude/share", "20240115_103000", .ok, .ok⟩
      ⟨"multipart/form-data; boundary=x", none⟩ []).2 (by decide) rfl⟩

/-- C6 counterexample: the claim promises that after a failed write the
storage directory holds either the complete file or no file under the
final name.  The code writes the payload directly to the final path, so
a failure after one byte of a two-byte payload leaves that one-byte
prefix visible under the final name, alongside the 500 failure
response. -/
theorem truncated_write_cex :
    do_POST ⟨"/home/claude/share", "20240115_103000", .ok,
        .failAfter 1 "No space left on device"⟩ "/upload"
        ⟨"multipart/form-data; boundary=x", some ⟨some "a.txt", [65, 66]⟩⟩ [] =
      (Response.err 500 "No space left on device", [("a_20240115_103000.txt", [65])]) ∧
    fsLookup [("a_20240115_103000.txt", [65])] "a_20240115_103000.txt" = some [65] ∧
    ([65] : List Nat) ≠ [65, 66] := by
  decide

/-- C6 (amended): when directory creation fails, or opening the target
file fails, the upload answers 500 carrying the failure message and the
directory is untouched; when the write fails after some bytes, the
upload still answers 500 with the message, but the written prefix of
the payload remains visible under the final stored name (the code
writes the final path directly, with no temp-and-rename step). -/
theorem storage_failure_500 (env : Env) (req : PostRequest) (fs : FS)
    (part : FormPart) (rawName : String)
    (hct : strContains req.contentType "multipart/form-data" = true)
    (hpart : req.filePart = some part) (hname : part.filename = some rawName) :
    (∀ msg, env.mkdirOutcome = MkdirOutcome.fail msg →
      do_POST env "/upload" req fs = (Response.err 500 msg, fs)) ∧
    (∀ msg, env.mkdirOutcome = MkdirOutcome.ok →
      env.writeOutcome = WriteOutcome.failOpen msg →
      do_POST env "/upload" req fs = (Response.err 500 msg, fs)) ∧
    (∀ k msg, env.mkdirOutcome = MkdirOutcome.ok →
      env.writeOutcome = WriteOutcome.failAfter k msg →
      do_POST env "/upload" req fs =
        (Response.err 500 msg, fsInsert fs (storedName rawName env.ts) (part.content.take k))) := by
  refine ⟨fun msg hmk => ?_, fun msg hmk hw => ?_, fun k msg hmk hw => ?_⟩
  · simp [do_POST, hct, hpart, hname, hmk]
  · simp [do_POST, hct, hpart, hname, hmk, hw]
  · simp [do_POST, hct, hpart, hname, hmk, hw]

/-- C6 witness: a failed directory creation evaluated concretely. -/
theorem storage_failure_witness :
    do_POST ⟨"/home/claude/share", "20240115_103000", .fail "Permission denied", .ok⟩
        "/upload" ⟨"multipart/form-data; boundary=x", some ⟨some "a.txt", [1, 2]⟩⟩ [] =
      (Response.err 500 "Permission denied", []) :=
  (storage_failure_500 ⟨"/home/claude/share", "20240115_103000", .fail "Permission denied", .ok⟩
    ⟨"multipart/form-data; boundary=x", some ⟨some "a.txt", [1, 2]⟩⟩ []
    ⟨some "a.txt", [1, 2]⟩ "a.txt" (by decide) rfl rfl).1 "Permission denied" rfl

/-- C7: a missing storage directory yields the empty listing; otherwise
the /files response maps exactly the regular files (subdirectory
entries filtered out) of the directory, after a stable sort by
modification time descending, to records carrying name, full path
(directory slash name), the size string (bytes below 1024, kibibytes to
one decimal below 1024 squared, mebibytes to one decimal otherwise, the
decimal rounded half to even as float formatting does), and the
formatted modification timestamp. -/
theorem files_listing_spec (d : List DirEntry) (p : String) :
    listFiles none p = [] ∧
    do_GET p none "/files" = Response.files [] ∧
    do_GET p (some d) "/files" = Response.files (listFiles (some d) p) ∧
    listFiles (some d) p = ((sortedEntries d).filter (·.isFile)).map (mkFileInfo p) ∧
    ((sortedEntries d).filter (·.isFile)).Pairwise (fun a b => b.mtime ≤ a.mtime) ∧
    List.Perm ((sortedEntries d).filter (·.isFile)) (d.filter (·.isFile)) ∧
    (∀ e, mkFileInfo p e =
      { name := e.name, path := p ++ "/" ++ e.name, size := sizeStr e.size,
        time := fmtTime e.mtime }) ∧
    (∀ n, n < 1024 → sizeStr n = toString n ++ " B") ∧
    (∀ n, 1024 ≤ n → n < 1024 * 1024 →
      sizeStr n = oneDecimal (roundHalfEven (5 * n) 512) ++ " KB") ∧
    (∀ n, 1024 * 1024 ≤ n →
      sizeStr n = oneDecimal (roundHalfEven (5 * n) 524288) ++ " MB") := by
  have hsorted : (sortedEntries d).Pairwise (fun a b => b.mtime ≤ a.mtime) := by
    have h := @List.sorted_mergeSort DirEntry (fun a b => decide (b.mtime ≤ a.mtime))
      (by intro a b c hab hbc; simp only [decide_eq_true_eq] at *; omega)
      (by intro a b; simp only [Bool.or_eq_true, decide_eq_true_eq]; omega) d
    exact h.imp fun hab => of_decide_eq_true hab
  have h0 : listFiles none p = [] := rfl
  have h4 : listFiles (some d) p = ((sortedEntries d).filter (·.isFile)).map (mkFileInfo p) :=
    rfl
  refine ⟨h0, by simp [do_GET, h0], by simp [do_GET], h4,
    List.Pairwise.sublist (List.filter_sublist _) hsorted,
    (List.mergeSort_perm d _).filter _, fun e => rfl, ?_, ?_, ?_⟩
  · intro n h
    unfold sizeStr
    rw [if_pos h]
  · intro n h1 h2
    unfold sizeStr
    rw [if_neg (by omega), if_pos h2]
  · intro n h1
    unfold sizeStr
    rw [if_neg (by omega), if_neg (by omega)]

/-- C7 witness: the three size branches and the missing-directory case
evaluated concretely. -/
theorem files_listing_witness :
    sizeStr 500 = "500 B" ∧ sizeStr 2048 = "2.0 KB" ∧ sizeStr 1048576 = "1.0 MB" ∧
    listFiles none "/home/claude/share" = [] := by
  have h := files_listing_spec [] "/home/claude/share"
  refine ⟨?_, ?_, ?_, h.1⟩
  · rw [h.2.2.2.2.2.2.2.1 500 (by decide)]
    decide
  · rw [h.2.2.2.2.2.2.2.2.1 2048 (by decide) (by decide)]
    decide
  · rw [h.2.2.2.2.2.2.2.2.2 1048576 (by decide)]
    decide

/-- C8 counterexample: the claim says no operation ever updates a
stored file in place.  Two uploads of the same client filename within
the same second share the stored name, and the second write replaces
the first file's content. -/
theorem same_second_overwrite_cex :
    (do_POST ⟨"/home/claude/share", "20240101_000000", .ok, .ok⟩ "/upload"
        ⟨"multipart/form-data; boundary=x", some ⟨some "a.txt", [0]⟩⟩ []).2 =
      [("a_20240101_000000.txt", [0])] ∧
    fsLookup (do_POST ⟨"/home/claude/share", "20240101_000000", .ok, .ok⟩ "/upload"
        ⟨"multipart/form-data; boundary=x", some ⟨some "a.txt", [1]⟩⟩
        [("a_20240101_000000.txt", [0])]).2 "a_20240101_000000.txt" = some [1] ∧
    some ([1] : List Nat) ≠ some [0] := by
  decide

/-- C8 (amended): uploads carrying distinct formatted timestamps (which
uploads more than one second apart always produce) of the same client
filename store under distinct names, and an upload never touches any
stored name other than its own target, so files whose name differs from
every later upload's stored name keep their contents; only two uploads
of the same sanitized name within the same second overwrite. -/
theorem no_overwrite_distinct_ts (fn ts1 ts2 : String) (hts : ts1 ≠ ts2) :
    storedName fn ts1 ≠ storedName fn ts2 ∧
    (∀ env path req fs name,
      (∀ part rawName, req.filePart = some part → part.filename = some rawName →
        name ≠ storedName rawName env.ts) →
      fsLookup (do_POST env path req fs).2 name = fsLookup fs name) := by
  constructor
  · intro he
    apply hts
    have hd := congrArg String.data he
    simp only [storedName, String.data_append] at hd
    exact String.ext (List.append_cancel_left (List.append_cancel_right hd))
  · intro env path req fs name hname
    obtain ⟨ct, fp⟩ := req
    obtain ⟨dir, ts, mk, w⟩ := env
    by_cases hp : path = "/upload"
    · by_cases hct : strContains ct "multipart/form-data" = true
      · rcases fp with _ | ⟨⟨pfn, pdata⟩⟩
        · simp [do_POST, hp, hct]
        · rcases pfn with _ | rawName
          · simp [do_POST, hp, hct]
          · have hne : name ≠ storedName rawName ts :=
              hname ⟨some rawName, pdata⟩ rawName rfl rfl
            rcases mk with _ | msg
            · rcases w with _ | msg | ⟨k, msg⟩
              · simp [do_POST, hp, hct,
                  fsLookup_fsInsert_ne fs (storedName rawName ts) name pdata hne]
              · simp [do_POST, hp, hct]
              · simp [do_POST, hp, hct,
                  fsLookup_fsInsert_ne fs (storedName rawName ts) name (pdata.take k) hne]
            · simp [do_POST, hp, hct]
      · simp [do_POST, hp, hct]
    · simp [do_POST, hp]

/-- C8 witness: a later upload with a different timestamp stores under
a different name and leaves the earlier file's content intact. -/
theorem no_overwrite_witness :
    storedName "a.txt" "20240101_000000" ≠ storedName "a.txt" "20240101_000002" ∧
    fsLookup (do_POST ⟨"/home/claude/share", "20240101_000002", .ok, .ok⟩ "/upload"
        ⟨"multipart/form-data; boundary=x", some ⟨some "a.txt", [1]⟩⟩
        [("a_20240101_000000.txt", [0])]).2 "a_20240101_000000.txt" = some [0] := by
  have h := no_overwrite_distinct_ts "a.txt" "20240101_000000" "20240101_000002" (by decide)
  refine ⟨h.1, ?_⟩
  rw [h.2 ⟨"/home/claude/share", "20240101_000002", .ok, .ok⟩ "/upload"
      ⟨"multipart/form-data; boundary=x", some ⟨some "a.txt", [1]⟩⟩
      [("a_20240101_000000.txt", [0])] "a_20240101_000000.txt" ?_]
  · decide
  · intro part rawName hp hf
    cases hp
    cases hf
    decide

/-- C9 counterexample: the claim says an empty client filename receives
a fixed placeholder base such as the word upload.  The code applies no
placeholder: the empty filename sanitizes to the empty string, its base
is empty, and the stored name is just an underscore followed by the
timestamp. -/
theorem empty_filename_cex :
    storedName "" "20240115_103000" = "_20240115_103000" ∧
    (splitext (sanitize "")).1 = "" ∧ ("" : String) ≠ "upload" := by
  decide

/-- C9 (amended): an empty client filename keeps its empty base; the
stored filename is an underscore followed by the timestamp, which is
still a nonempty name, but no placeholder base is ever substituted. -/
theorem empty_filename_base (ts : String) :
    storedName "" ts = "_" ++ ts ∧ sanitize "" = "" ∧
    (splitext (sanitize "")).1 = "" ∧ (splitext (sanitize "")).2 = "" := by
  refine ⟨?_, rfl, rfl, rfl⟩
  show (splitext (sanitize "")).1 ++ "_" ++ ts ++ (splitext (sanitize "")).2 = "_" ++ ts
  have h : splitext (sanitize "") = ("", "") := by decide
  rw [h]
  simp [String.empty_append, String.append_empty]

/-- C10: a multipart POST whose file part carries no filename attribute
makes re.sub raise, which the catch-all turns into a 500 failure
response, not the 400 no-file-provided response, and nothing is written
to the storage directory. -/
theorem null_filename_500 (env : Env) (req : PostRequest) (fs : FS) (part : FormPart)
    (hct : strContains req.contentType "multipart/form-data" = true)
    (hpart : req.filePart = some part) (hname : part.filename = none) :
    (∃ msg, do_POST env "/upload" req fs = (Response.err 500 msg, fs)) ∧
    (do_POST env "/upload" req fs).1 ≠ Response.err 400 "No file provided" ∧
    (do_POST env "/upload" req fs).2 = fs := by
  have hmain : do_POST env "/upload" req fs =
      (Response.err 500 "expected string or bytes-like object", fs) := by
    simp [do_POST, hct, hpart, hname]
  refine ⟨⟨_, hmain⟩, ?_, by rw [hmain]⟩
  intro hcon
  rw [hmain] at hcon
  simp at hcon

/-- C10 witness: the null-filename part evaluated concretely leaves the
directory unchanged. -/
theorem null_filename_witness :
    (do_POST ⟨"/home/claude/share", "20240115_103000", .ok, .ok⟩ "/upload"
        ⟨"multipart/form-data; boundary=x", some ⟨none, [1, 2, 3]⟩⟩ []).2 = [] :=
  (null_filename_500 ⟨"/home/claude/share", "20240115_103000", .ok, .ok⟩
    ⟨"multipart/form-data; boundary=x", some ⟨none, [1, 2, 3]⟩⟩ [] ⟨none, [1, 2, 3]⟩
    (by decide) rfl rfl).2.2

end UploadServer
